import Mathlib

/-
Verification of the replication engine in src/src/plugins/replication/index.ts
(class RxReplicationStateBase and the controller replicateRxCollection).

The pure parts of the class are embedded as Lean functions; the single-threaded
event loop that interleaves run() calls, queued cycle executions and cancel()
is embedded as a step machine on an explicit state record, emitting the
subject emissions (active, canceled, initialReplicationComplete) as events.
Functions imported from modules that are not part of this repository snapshot
(revision-flag, replication-checkpoint, some util helpers) are passed in as
parameters of the embedded definitions, exactly where the source calls them.
-/

namespace RxReplication

/-- The four flags read by RxReplicationStateBase.isStopped:
collection.destroyed, the live option, and the current values of the
initialReplicationComplete and canceled behavior subjects. -/
structure StateFlags where
  destroyed : Bool
  live : Bool
  initialReplicationComplete : Bool
  canceled : Bool
  deriving DecidableEq

/-- Embedding of RxReplicationStateBase.isStopped (index.ts lines 93-105):
an if-chain over destroyed, then (not live and initial replication complete),
then the canceled subject value, returning false otherwise. -/
def isStopped (s : StateFlags) : Bool :=
  if s.destroyed then true
  else if !s.live && s.initialReplicationComplete then true
  else if s.canceled then true
  else false

/-- Everything one invocation of _run does that is visible from outside:
its return value (true means a retry was scheduled), the setTimeout delay of
the scheduled run() if any, whether it awaited requestIdlePromise, and
whether runPush / runPull were invoked. -/
structure CycleOutcome where
  willRetry : Bool
  scheduledRetryAfter : Option Nat
  awaitedIdle : Bool
  ranPush : Bool
  ranPull : Bool
  deriving DecidableEq

/-- Embedding of RxReplicationStateBase._run (index.ts lines 159-195).
pushCfg / pullCfg say whether the push / pull options are configured;
pushOk / pullOk stand for the boolean results of runPush() / runPull(),
which depend only on external collaborators. The early returns of the
source become an if-chain: a failed push with retryOnFail schedules a run()
after retryTime and returns true without ever reaching the pull section. -/
def runOneCycle (pushCfg pullCfg : Bool) (retryTime : Nat)
    (initialReplicationComplete : Bool) (retryOnFail : Bool)
    (pushOk pullOk : Bool) : CycleOutcome :=
  let awaitedIdle := initialReplicationComplete
  if pushCfg && (!pushOk && retryOnFail) then
    { willRetry := true, scheduledRetryAfter := some retryTime,
      awaitedIdle := awaitedIdle, ranPush := true, ranPull := false }
  else if pullCfg && (!pullOk && retryOnFail) then
    { willRetry := true, scheduledRetryAfter := some retryTime,
      awaitedIdle := awaitedIdle, ranPush := pushCfg, ranPull := true }
  else
    { willRetry := false, scheduledRetryAfter := none,
      awaitedIdle := awaitedIdle, ranPush := pushCfg, ranPull := pullCfg }

/-- A locally stored document (RxDocumentData): the user content is abstracted
to an opaque string, _deleted may be absent on the stored shape (the source
checks hasOwnProperty before defaulting it), and _rev is the revision string
of shape height-hash. -/
structure StoredDoc where
  id : String
  data : String
  deleted : Option Bool
  rev : String
  deriving DecidableEq

/-- A wire document (WithDeleted): user fields plus a required _deleted flag;
_rev and _attachments are stripped before it goes over the wire, and pulled
documents arrive in this shape. -/
structure WireDoc where
  id : String
  data : String
  deleted : Bool
  deriving DecidableEq

/-- One entry of the changedDocs map returned by the change collector. -/
structure ChangeRow where
  doc : StoredDoc
  sequence : Nat
  deriving DecidableEq

/-- Result of getChangesSinceLastPushSequence: the batch of changed rows and
the last inspected sequence. -/
structure ChangesResult where
  changedDocs : List ChangeRow
  lastSequence : Nat
  deriving DecidableEq

/-- The push options consumed by runPush; only batchSize matters for the
embedded data flow, the handler is passed separately as a function. -/
structure PushOptions where
  batchSize : Option Nat
  deriving DecidableEq

/-- Embedding of the batch-size computation in runPush (index.ts line 327):
the source reads this.push.batchSize ? this.push.batchSize : 5, so by JS
truthiness both an absent batchSize and a batchSize of 0 fall back to 5. -/
def pushBatchSize (push : PushOptions) : Nat :=
  match push.batchSize with
  | some n => if n != 0 then n else 5
  | none => 5

/-- Embedding of the wire-document construction in runPush (index.ts lines
334-348): flat-clone each changed doc, default _deleted to false when the
property is absent, and drop _rev and _attachments. -/
def pushWireDocs (changesResult : ChangesResult) : List WireDoc :=
  changesResult.changedDocs.map (fun row =>
    let doc := row.doc
    { id := doc.id, data := doc.data,
      deleted := match doc.deleted with | some b => b | none => false })

/-- Everything one invocation of runPush does that is visible from outside:
the boolean return value, the emissions on the error and send subjects, the
sequence written through setLastPushSequence if any, and whether the
recursive drain call was made. -/
structure PushOutcome where
  ok : Bool
  errorEmits : List String
  sendEmits : List WireDoc
  savedPushSequence : Option Nat
  recursed : Bool
  deriving DecidableEq

/-- Embedding of one invocation of RxReplicationStateBase.runPush (index.ts
lines 322-371). collector stands for getChangesSinceLastPushSequence
(replication-checkpoint, outside this snapshot) applied to the collection and
identity, handler for push.handler; a handler that throws is an Except.error
value. The try-catch of the source means the function always returns a
PushOutcome and never propagates the handler error: on a throw it emits the
error and returns ok = false with no send emissions and no checkpoint write.
On success it emits every pushed doc on send, persists lastSequence, and
recurses when the batch was non-empty. -/
def runPushOnce (push : PushOptions) (collector : Nat → ChangesResult)
    (handler : List WireDoc → Except String Unit) : PushOutcome :=
  let changesResult := collector (pushBatchSize push)
  let pushDocs := pushWireDocs changesResult
  match handler pushDocs with
  | Except.error err =>
    { ok := false, errorEmits := [err], sendEmits := [],
      savedPushSequence := none, recursed := false }
  | Except.ok _ =>
    { ok := true, errorEmits := [], sendEmits := pushDocs,
      savedPushSequence := some changesResult.lastSequence,
      recursed := changesResult.changedDocs.length != 0 }

/-- Embedding of RxReplicationStateBase.handleDocumentsFromRemote (index.ts
lines 277-316). createRev stands for the imported
createRevisionForPulledDocument and getHeight for getHeightOfRevision (both
from modules outside this snapshot); localDocs models the Map returned by
storageInstance.findDocumentsById for the pulled ids. Each pulled doc is
flat-cloned, its new _rev is built from the existing height plus one when a
local version exists and from height 1 otherwise, and the tagged clones are
accumulated into toStorageDocs; the for-loop of the source is a left fold. -/
def handleDocumentsFromRemote (identity : String)
    (createRev : String → WireDoc → String)
    (getHeight : String → Nat)
    (localDocs : String → Option StoredDoc)
    (docs : List WireDoc) : List StoredDoc :=
  docs.foldl (fun toStorageDocs originalDoc =>
    let doc := originalDoc
    let newRevision0 := createRev identity doc
    let newRevision :=
      match localDocs doc.id with
      | some docStateInLocalStorageInstance =>
        let hasHeight := getHeight docStateInLocalStorageInstance.rev
        let newRevisionHeight := hasHeight + 1
        toString newRevisionHeight ++ "-" ++ newRevision0
      | none => "1-" ++ newRevision0
    toStorageDocs ++
      [{ id := doc.id, data := doc.data, deleted := some doc.deleted,
         rev := newRevision }]) []

/-- A change event of the collection stream as seen by the controller
subscription: the isLocal flag used by the filter, and the _rev of the
document extracted by getDocumentDataOfRxChangeEvent (none when the document
carries no _rev, matching the JS truthiness check on rev). -/
structure ChangeEvent where
  isLocal : Bool
  rev : Option String
  deriving DecidableEq

/-- Embedding of the change-stream subscription installed by
replicateRxCollection in live mode with push configured (index.ts lines
427-452): the stream is filtered to non-local events; the callback returns
early when the state is stopped, then calls run() iff the revision is truthy
(present and non-empty) and wasRevisionfromPullReplication(identity, rev) is
false. The predicate is abstracted as wasPull (revision-flag is outside this
snapshot). The function returns true iff run() is called for the event. -/
def changeEventTriggersRun (wasPull : String → Bool) (stopped : Bool)
    (ev : ChangeEvent) : Bool :=
  if ev.isLocal then false
  else if stopped then false
  else
    match ev.rev with
    | none => false
    | some rev => if rev == "" then false else !wasPull rev

/-- Subject emissions of the cycle wrapper inside run() and of cancel():
active.next, canceled.next and initialReplicationComplete.next calls. -/
inductive Emission
  | activeE (b : Bool)
  | canceledE (b : Bool)
  | initialReplicationCompleteE (b : Bool)
  deriving DecidableEq

/-- Event-loop state of one RxReplicationStateBase: the flags read by
isStopped, the runQueueCount, and the queued-but-not-yet-executed cycle
closures chained on runningPromise, each recorded by the retryOnFail flag
its run() call captured. -/
structure RunnerState where
  destroyed : Bool
  live : Bool
  initialReplicationComplete : Bool
  canceled : Bool
  runQueueCount : Nat
  pendingCycles : List Bool
  deriving DecidableEq

/-- The StateFlags view of a RunnerState. -/
def RunnerState.flags (s : RunnerState) : StateFlags :=
  { destroyed := s.destroyed, live := s.live,
    initialReplicationComplete := s.initialReplicationComplete,
    canceled := s.canceled }

/-- isStopped read on the event-loop state. -/
def runnerStopped (s : RunnerState) : Bool :=
  isStopped s.flags

/-- Atomic steps of the single-threaded event loop: a call to run(retryOnFail)
(index.ts lines 127-151), the execution of the next queued cycle closure
(the body chained on runningPromise, with willRetry standing for the value
_run returned), and a call to cancel() (index.ts lines 115-122). -/
inductive LoopStep
  | runCall (retryOnFail : Bool)
  | execCycle (willRetry : Bool)
  | cancelCall
  deriving DecidableEq

/-- One atomic step of the event loop, returning the next state and the
subject emissions of the step, in order.
runCall: return early when stopped, return the running promise when
runQueueCount exceeds 2, otherwise increment the counter and chain one cycle.
execCycle: run the head closure: emit active true, compute willRetry by
running _run, emit active false, then emit initialReplicationComplete true
iff retryOnFail was set, no retry was scheduled and the flag was still false;
finally decrement the counter.
cancelCall: when not stopped, unsubscribe and emit canceled true. -/
def loopStep (s : RunnerState) : LoopStep → RunnerState × List Emission
  | LoopStep.runCall retryOnFail =>
    if runnerStopped s then (s, [])
    else if s.runQueueCount > 2 then (s, [])
    else ({ s with runQueueCount := s.runQueueCount + 1,
                   pendingCycles := s.pendingCycles ++ [retryOnFail] }, [])
  | LoopStep.execCycle willRetry =>
    match s.pendingCycles with
    | [] => (s, [])
    | retryOnFail :: rest =>
      let fires := retryOnFail && !willRetry && !s.initialReplicationComplete
      ({ s with pendingCycles := rest,
                runQueueCount := s.runQueueCount - 1,
                initialReplicationComplete :=
                  s.initialReplicationComplete || fires },
       [Emission.activeE true, Emission.activeE false] ++
         (if fires then [Emission.initialReplicationCompleteE true] else []))
  | LoopStep.cancelCall =>
    if runnerStopped s then (s, [])
    else ({ s with canceled := true }, [Emission.canceledE true])

/-- Run a list of event-loop steps, concatenating the emissions. -/
def runTrace (s : RunnerState) : List LoopStep → RunnerState × List Emission
  | [] => (s, [])
  | st :: rest =>
    let p1 := loopStep s st
    let p2 := runTrace p1.1 rest
    (p2.1, p1.2 ++ p2.2)

/-- The state of a freshly constructed RxReplicationStateBase: both behavior
subjects start at false, nothing is queued. -/
def initialRunnerState (live : Bool) : RunnerState :=
  { destroyed := false, live := live, initialReplicationComplete := false,
    canceled := false, runQueueCount := 0, pendingCycles := [] }

/-- A live runner with exactly one cycle in flight (runQueueCount is 1 and
its closure has not executed yet): the situation in which a burst of run()
calls arrives. -/
def burstRunnerState : RunnerState :=
  { destroyed := false, live := true, initialReplicationComplete := false,
    canceled := false, runQueueCount := 1, pendingCycles := [true] }

/-- The values emitted on the initialReplicationComplete subject, in order. -/
def initCompleteEmissions : List Emission → List Bool
  | [] => []
  | Emission.initialReplicationCompleteE b :: rest =>
    b :: initCompleteEmissions rest
  | _ :: rest => initCompleteEmissions rest

/-- The values emitted on the canceled subject, in order. -/
def canceledEmissions : List Emission → List Bool
  | [] => []
  | Emission.canceledE b :: rest => b :: canceledEmissions rest
  | _ :: rest => canceledEmissions rest

/-- The values emitted on the active subject, in order. -/
def activeEmissions : List Emission → List Bool
  | [] => []
  | Emission.activeE b :: rest => b :: activeEmissions rest
  | _ :: rest => activeEmissions rest

/-- Checks that a list of booleans is a sequence of true-false pairs: the
shape of the active emissions when cycles never overlap. -/
def alternatesTF : List Bool → Bool
  | [] => true
  | true :: false :: rest => alternatesTF rest
  | _ => false

/-- The emissions that happen strictly after the canceled subject first
emitted true. -/
def emissionsAfterCanceled : List Emission → List Emission
  | [] => []
  | Emission.canceledE true :: rest => rest
  | _ :: rest => emissionsAfterCanceled rest

/-- Folding an append-one-element accumulator over a list is a map. -/
lemma foldl_append_singleton {α β : Type} (g : α → β) :
    ∀ (l : List α) (acc : List β),
      l.foldl (fun a x => a ++ [g x]) acc = acc ++ l.map g := by
  intro l
  induction l with
  | nil => intro acc; simp
  | cons x xs ih => intro acc; simp [List.foldl, ih]

/-- C6 (confirmed): isStopped() returns true if and only if the collection is
destroyed, or the state is not live and the initial replication is complete,
or the state has been canceled. -/
theorem C6_isStopped_iff (s : StateFlags) :
    isStopped s = true ↔
      (s.destroyed = true ∨
        (s.live = false ∧ s.initialReplicationComplete = true) ∨
        s.canceled = true) := by
  rcases s with ⟨d, l, ic, c⟩
  cases d <;> cases l <;> cases ic <;> cases c <;> decide

/-- C7 (confirmed): in a cycle where push is configured, runPush() returned
false and retryOnFail is true, _run schedules a follow-up run() after
retryTime milliseconds, returns true (willRetry), and never invokes
runPull() in that cycle. -/
theorem C7_push_failure_gates_pull (pullCfg : Bool) (retryTime : Nat)
    (initComplete pullOk : Bool) :
    runOneCycle true pullCfg retryTime initComplete true false pullOk =
      { willRetry := true, scheduledRetryAfter := some retryTime,
        awaitedIdle := initComplete, ranPush := true, ranPull := false } := rfl

/-- C8 (confirmed): when push.handler throws on the batch, runPush() emits
exactly that error on the error subject, returns false, emits nothing on the
send subject, does not persist lastPushSequence, and does not recurse; the
error is returned as a value, never rethrown out of the cycle. -/
theorem C8_push_error_contained (push : PushOptions)
    (collector : Nat → ChangesResult)
    (handler : List WireDoc → Except String Unit) (e : String)
    (hThrow : handler (pushWireDocs (collector (pushBatchSize push))) =
      Except.error e) :
    runPushOnce push collector handler =
      { ok := false, errorEmits := [e], sendEmits := [],
        savedPushSequence := none, recursed := false } := by
  simp only [runPushOnce, hThrow]

/-- Witness for C8 at a concrete replication: a handler that always throws
on an empty batch. -/
theorem C8_push_error_contained_witness :
    runPushOnce { batchSize := none }
      (fun _ => { changedDocs := [], lastSequence := 0 })
      (fun _ => Except.error "err") =
      { ok := false, errorEmits := ["err"], sendEmits := [],
        savedPushSequence := none, recursed := false } :=
  C8_push_error_contained _ _ _ _ rfl

/-- C9 (confirmed): every pulled document is stored as a fresh clone whose
user fields are unchanged and whose new _rev is
(existingHeight + 1)-createRevisionForPulledDocument(identity, doc) when a
local stored version of the id exists and 1-createRevisionForPulledDocument
(identity, doc) otherwise; the statement holds for every implementation of
the imported hash and height helpers. Since the embedded function is pure
and builds the stored list out of new records, the original pulled documents
are left untouched. -/
theorem C9_pull_revision_tagging (identity : String)
    (createRev : String → WireDoc → String) (getHeight : String → Nat)
    (localDocs : String → Option StoredDoc) (docs : List WireDoc) :
    handleDocumentsFromRemote identity createRev getHeight localDocs docs =
      docs.map (fun doc =>
        { id := doc.id, data := doc.data, deleted := some doc.deleted,
          rev :=
            match localDocs doc.id with
            | some localDoc =>
              toString (getHeight localDoc.rev + 1) ++ "-" ++
                createRev identity doc
            | none => "1-" ++ createRev identity doc }) := by
  unfold handleDocumentsFromRemote
  exact foldl_append_singleton _ docs []

/-- C10 (confirmed): when push.batchSize is absent or 0 (JS-falsy), runPush
computes a batch size of 5 and consults the change collector only at batch
size 5. -/
theorem C10_default_push_batch_size (push : PushOptions)
    (collector : Nat → ChangesResult)
    (handler : List WireDoc → Except String Unit)
    (hFalsy : push.batchSize = none ∨ push.batchSize = some 0) :
    pushBatchSize push = 5 ∧
    runPushOnce push collector handler =
      runPushOnce push (fun _ => collector 5) handler := by
  have h5 : pushBatchSize push = 5 := by
    rcases hFalsy with h | h <;> simp [pushBatchSize, h]
  refine ⟨h5, ?_⟩
  simp only [runPushOnce, h5]

/-- Witness for C10 at a concrete replication with an absent batchSize. -/
theorem C10_default_push_batch_size_witness :
    pushBatchSize { batchSize := none } = 5 ∧
    runPushOnce { batchSize := none }
      (fun n => { changedDocs := [], lastSequence := n })
      (fun _ => Except.ok ()) =
    runPushOnce { batchSize := none }
      (fun _ => { changedDocs := [], lastSequence := 5 })
      (fun _ => Except.ok ()) :=
  C10_default_push_batch_size _ _ _ (Or.inl rfl)

/-- C1 (confirmed): for the live-mode push wakeup subscription, on a
non-local change event the controller never calls run() when the current
revision is pull-tagged for this identity (for any stopped flag), and does
call run() when the state is not stopped and the revision is present
(truthy) and not pull-tagged. -/
theorem C1_echo_suppression (wasPull : String → Bool) (ev : ChangeEvent)
    (hNonLocal : ev.isLocal = false) :
    (∀ (stopped : Bool) (r : String), ev.rev = some r → wasPull r = true →
      changeEventTriggersRun wasPull stopped ev = false) ∧
    (∀ r : String, ev.rev = some r → r ≠ "" → wasPull r = false →
      changeEventTriggersRun wasPull false ev = true) := by
  constructor
  · intro stopped r hrev htag
    cases stopped <;> simp [changeEventTriggersRun, hNonLocal, hrev, htag]
  · intro r hrev hne hfalse
    simp [changeEventTriggersRun, hNonLocal, hrev, hne, hfalse]

/-- Witness for C1: with the pull-tag predicate recognizing exactly the
revision 1-pulled, a non-local event carrying 1-pulled does not trigger
run() and a non-local event carrying 2-local does. -/
theorem C1_echo_suppression_witness :
    changeEventTriggersRun (fun r => r == "1-pulled") false
      { isLocal := false, rev := some "1-pulled" } = false ∧
    changeEventTriggersRun (fun r => r == "1-pulled") false
      { isLocal := false, rev := some "2-local" } = true := by
  constructor
  · exact (C1_echo_suppression (fun r => r == "1-pulled")
      { isLocal := false, rev := some "1-pulled" } rfl).1 false "1-pulled"
      rfl rfl
  · exact (C1_echo_suppression (fun r => r == "1-pulled")
      { isLocal := false, rev := some "2-local" } rfl).2 "2-local"
      rfl (by decide) rfl

lemma initCompleteEmissions_append (a b : List Emission) :
    initCompleteEmissions (a ++ b) =
      initCompleteEmissions a ++ initCompleteEmissions b := by
  induction a with
  | nil => simp [initCompleteEmissions]
  | cons e rest ih => cases e <;> simp [initCompleteEmissions, ih]

lemma canceledEmissions_append (a b : List Emission) :
    canceledEmissions (a ++ b) =
      canceledEmissions a ++ canceledEmissions b := by
  induction a with
  | nil => simp [canceledEmissions]
  | cons e rest ih => cases e <;> simp [canceledEmissions, ih]

lemma activeEmissions_append (a b : List Emission) :
    activeEmissions (a ++ b) = activeEmissions a ++ activeEmissions b := by
  induction a with
  | nil => simp [activeEmissions]
  | cons e rest ih => cases e <;> simp [activeEmissions, ih]

/-- A canceled runner always counts as stopped. -/
lemma runnerStopped_of_canceled (s : RunnerState) (h : s.canceled = true) :
    runnerStopped s = true := by
  rcases s with ⟨d, l, ic, c, q, p⟩
  simp only at h
  subst h
  cases d <;> cases l <;> cases ic <;> rfl

/-- A runner that is not stopped is in particular not canceled. -/
lemma not_canceled_of_not_stopped (s : RunnerState)
    (h : runnerStopped s = false) : s.canceled = false := by
  cases hc : s.canceled
  · rfl
  · rw [runnerStopped_of_canceled s hc] at h
    exact absurd h (by simp)

/-- The initialReplicationComplete subject value never goes back to false in
one step. -/
lemma loopStep_initComplete_mono (s : RunnerState) (st : LoopStep)
    (h : s.initialReplicationComplete = true) :
    (loopStep s st).1.initialReplicationComplete = true := by
  cases st with
  | runCall r => simp only [loopStep]; split_ifs <;> simp [h]
  | execCycle w =>
    cases hp : s.pendingCycles with
    | nil => simp [loopStep, hp, h]
    | cons r rest => simp [loopStep, hp, h]
  | cancelCall => simp only [loopStep]; split_ifs <;> simp [h]

/-- The canceled subject value never goes back to false in one step. -/
lemma loopStep_canceled_mono (s : RunnerState) (st : LoopStep)
    (h : s.canceled = true) : (loopStep s st).1.canceled = true := by
  cases st with
  | runCall r => simp only [loopStep]; split_ifs <;> simp [h]
  | execCycle w =>
    cases hp : s.pendingCycles with
    | nil => simp [loopStep, hp, h]
    | cons r rest => simp [loopStep, hp, h]
  | cancelCall => simp only [loopStep]; split_ifs <;> simp [h]

lemma runTrace_initComplete_mono (steps : List LoopStep) :
    ∀ s : RunnerState, s.initialReplicationComplete = true →
      (runTrace s steps).1.initialReplicationComplete = true := by
  induction steps with
  | nil => intro s h; simpa [runTrace] using h
  | cons st rest ih =>
    intro s h
    simp only [runTrace]
    exact ih _ (loopStep_initComplete_mono s st h)

lemma runTrace_canceled_mono (steps : List LoopStep) :
    ∀ s : RunnerState, s.canceled = true →
      (runTrace s steps).1.canceled = true := by
  induction steps with
  | nil => intro s h; simpa [runTrace] using h
  | cons st rest ih =>
    intro s h
    simp only [runTrace]
    exact ih _ (loopStep_canceled_mono s st h)

/-- One step emits on initialReplicationComplete exactly when it flips the
subject value from false to true, and the emitted value is true. -/
lemma loopStep_initComplete_emissions (s : RunnerState) (st : LoopStep) :
    initCompleteEmissions (loopStep s st).2 =
      (if s.initialReplicationComplete then []
       else if (loopStep s st).1.initialReplicationComplete then [true]
       else []) := by
  cases st with
  | runCall r =>
    simp only [loopStep]
    split_ifs with h1 h2 <;>
      cases h : s.initialReplicationComplete <;>
        simp [initCompleteEmissions, h]
  | execCycle w =>
    cases hp : s.pendingCycles with
    | nil =>
      cases h : s.initialReplicationComplete <;>
        simp [loopStep, hp, initCompleteEmissions, h]
    | cons r rest =>
      cases h : s.initialReplicationComplete <;> cases r <;> cases w <;>
        simp [loopStep, hp, initCompleteEmissions, h]
  | cancelCall =>
    simp only [loopStep]
    split_ifs with h1 <;>
      cases h : s.initialReplicationComplete <;>
        simp [initCompleteEmissions, h]

/-- One step emits on canceled exactly when it flips the subject value from
false to true, and the emitted value is true. -/
lemma loopStep_canceled_emissions (s : RunnerState) (st : LoopStep) :
    canceledEmissions (loopStep s st).2 =
      (if s.canceled then []
       else if (loopStep s st).1.canceled then [true]
       else []) := by
  cases st with
  | runCall r =>
    simp only [loopStep]
    split_ifs with h1 h2 <;>
      cases h : s.canceled <;> simp [canceledEmissions, h]
  | execCycle w =>
    cases hp : s.pendingCycles with
    | nil => cases h : s.canceled <;> simp [loopStep, hp, canceledEmissions, h]
    | cons r rest =>
      cases h : s.canceled <;>
        simp [loopStep, hp, canceledEmissions, h] <;>
        split_ifs <;> simp [canceledEmissions]
  | cancelCall =>
    by_cases h1 : runnerStopped s = true
    · cases h : s.canceled <;> simp [loopStep, h1, canceledEmissions, h]
    · simp only [Bool.not_eq_true] at h1
      have hc := not_canceled_of_not_stopped s h1
      simp [loopStep, h1, canceledEmissions, hc]

lemma runTrace_initComplete_emissions (steps : List LoopStep) :
    ∀ s : RunnerState,
      initCompleteEmissions (runTrace s steps).2 =
        (if s.initialReplicationComplete then []
         else if (runTrace s steps).1.initialReplicationComplete then [true]
         else []) := by
  induction steps with
  | nil =>
    intro s
    cases h : s.initialReplicationComplete <;>
      simp [runTrace, initCompleteEmissions, h]
  | cons st rest ih =>
    intro s
    simp only [runTrace]
    rw [initCompleteEmissions_append, loopStep_initComplete_emissions, ih]
    by_cases h : s.initialReplicationComplete = true
    · have h1 := loopStep_initComplete_mono s st h
      have h2 := runTrace_initComplete_mono rest _ h1
      simp [h, h1, h2]
    · simp only [Bool.not_eq_true] at h
      by_cases h1 : (loopStep s st).1.initialReplicationComplete = true
      · have h2 := runTrace_initComplete_mono rest _ h1
        simp [h, h1, h2]
      · simp only [Bool.not_eq_true] at h1
        simp [h, h1]

lemma runTrace_canceled_emissions (steps : List LoopStep) :
    ∀ s : RunnerState,
      canceledEmissions (runTrace s steps).2 =
        (if s.canceled then []
         else if (runTrace s steps).1.canceled then [true]
         else []) := by
  induction steps with
  | nil =>
    intro s
    cases h : s.canceled <;> simp [runTrace, canceledEmissions, h]
  | cons st rest ih =>
    intro s
    simp only [runTrace]
    rw [canceledEmissions_append, loopStep_canceled_emissions, ih]
    by_cases h : s.canceled = true
    · have h1 := loopStep_canceled_mono s st h
      have h2 := runTrace_canceled_mono rest _ h1
      simp [h, h1, h2]
    · simp only [Bool.not_eq_true] at h
      by_cases h1 : (loopStep s st).1.canceled = true
      · have h2 := runTrace_canceled_mono rest _ h1
        simp [h, h1, h2]
      · simp only [Bool.not_eq_true] at h1
        simp [h, h1]

/-- Each step emits either nothing on active, or exactly the pair true then
false of one cycle. -/
lemma activeEmissions_loopStep (s : RunnerState) (st : LoopStep) :
    activeEmissions (loopStep s st).2 = [] ∨
    activeEmissions (loopStep s st).2 = [true, false] := by
  cases st with
  | runCall r =>
    simp only [loopStep]
    split_ifs <;> simp [activeEmissions]
  | execCycle w =>
    cases hp : s.pendingCycles with
    | nil => simp [loopStep, hp, activeEmissions]
    | cons r rest =>
      simp only [loopStep, hp]
      split_ifs <;> simp [activeEmissions]
  | cancelCall =>
    simp only [loopStep]
    split_ifs <;> simp [activeEmissions]

/-- In every trace the active emissions are a sequence of true-false pairs:
cycle executions never overlap. -/
lemma alternatesTF_activeEmissions (steps : List LoopStep) :
    ∀ s : RunnerState,
      alternatesTF (activeEmissions (runTrace s steps).2) = true := by
  induction steps with
  | nil => intro s; simp [runTrace, activeEmissions, alternatesTF]
  | cons st rest ih =>
    intro s
    simp only [runTrace]
    rw [activeEmissions_append]
    rcases activeEmissions_loopStep s st with h | h <;> rw [h]
    · simpa using ih (loopStep s st).1
    · simpa [alternatesTF] using ih (loopStep s st).1

/-- run() preserves the counter-equals-queue-length invariant and, given the
guard on runQueueCount, a queue of at most 3. -/
lemma loopStep_runCall_invariant (s : RunnerState) (r : Bool)
    (h1 : s.runQueueCount = s.pendingCycles.length)
    (h2 : s.pendingCycles.length ≤ 3) :
    (loopStep s (LoopStep.runCall r)).1.runQueueCount =
      (loopStep s (LoopStep.runCall r)).1.pendingCycles.length ∧
    (loopStep s (LoopStep.runCall r)).1.pendingCycles.length ≤ 3 := by
  simp only [loopStep]
  split_ifs with hstop hq
  · exact ⟨h1, h2⟩
  · exact ⟨h1, h2⟩
  · simp only [List.length_append, List.length_cons, List.length_nil]
    omega

/-- Any number of run() calls fired at a runner whose queue respects the
invariant leaves at most 3 cycles queued. -/
lemma burst_pending_bound (n : Nat) :
    ∀ s : RunnerState, s.runQueueCount = s.pendingCycles.length →
      s.pendingCycles.length ≤ 3 →
      (runTrace s
        (List.replicate n (LoopStep.runCall true))).1.pendingCycles.length ≤ 3 := by
  induction n with
  | zero => intro s _ h2; simpa [runTrace] using h2
  | succ m ih =>
    intro s h1 h2
    rw [List.replicate_succ]
    simp only [runTrace]
    obtain ⟨h1a, h2a⟩ := loopStep_runCall_invariant s true h1 h2
    exact ih _ h1a h2a

/-- C2 (counterexample): a cycle queued by run(retryOnFail = false) -- the
way the live-interval loop triggers cycles -- that executes with no retry
scheduled (willRetry = false) and no cancellation does NOT transition
initialReplicationComplete to true, contradicting the claim that the first
cycle that neither scheduled a retry nor was cancelled flips it regardless
of which trigger started it. -/
theorem C2_counterexample :
    (runTrace (initialRunnerState true)
      [LoopStep.runCall false,
       LoopStep.execCycle false]).1.initialReplicationComplete = false ∧
    initCompleteEmissions (runTrace (initialRunnerState true)
      [LoopStep.runCall false, LoopStep.execCycle false]).2 = [] := by decide

/-- C2 (amended, proved): initialReplicationComplete emits true at most once
over any trace from a fresh runner and never emits false, and a cycle
execution emits it exactly when the run() call that queued the cycle had
retryOnFail = true, the cycle scheduled no retry (willRetry = false) and the
subject was still false. -/
theorem C2_initial_complete_once :
    (∀ (live : Bool) (steps : List LoopStep),
      initCompleteEmissions (runTrace (initialRunnerState live) steps).2 = [] ∨
      initCompleteEmissions (runTrace (initialRunnerState live) steps).2 =
        [true]) ∧
    (∀ (s : RunnerState) (willRetry : Bool),
      initCompleteEmissions
          (loopStep s (LoopStep.execCycle willRetry)).2 = [true] ↔
        (s.pendingCycles.head? = some true ∧ willRetry = false ∧
          s.initialReplicationComplete = false)) := by
  constructor
  · intro live steps
    rw [runTrace_initComplete_emissions steps (initialRunnerState live)]
    by_cases hf :
        (runTrace (initialRunnerState live) steps).1.initialReplicationComplete
          = true
    · right
      simp [show (initialRunnerState live).initialReplicationComplete = false
        from rfl, hf]
    · left
      simp only [Bool.not_eq_true] at hf
      simp [show (initialRunnerState live).initialReplicationComplete = false
        from rfl, hf]
  · intro s w
    cases hp : s.pendingCycles with
    | nil => simp [loopStep, hp, initCompleteEmissions]
    | cons r rest =>
      cases r <;> cases w <;> cases hi : s.initialReplicationComplete <;>
        simp [loopStep, hp, initCompleteEmissions, hi]

/-- C3 (counterexample): with one cycle in flight, a burst of just two run()
calls already queues two extra cycles beyond the current one, because the
guard lets the counter grow up to 3; this contradicts the claimed bound of
at most one extra cycle. -/
theorem C3_coalescing_counterexample :
    ¬ ((runTrace burstRunnerState
        [LoopStep.runCall true,
         LoopStep.runCall true]).1.pendingCycles.length - 1 ≤ 1) := by decide

/-- C3 (amended, proved): concurrent callers never execute cycles in
parallel -- in every trace the active emissions are a sequence of complete
true-false pairs -- and a burst of run() calls made while one cycle is in
flight results in at most TWO extra cycles beyond the current one. -/
theorem C3_serialized_and_bounded :
    (∀ (live : Bool) (steps : List LoopStep),
      alternatesTF (activeEmissions
        (runTrace (initialRunnerState live) steps).2) = true) ∧
    (∀ n : Nat,
      (runTrace burstRunnerState
        (List.replicate n
          (LoopStep.runCall true))).1.pendingCycles.length - 1 ≤ 2) := by
  constructor
  · intro live steps
    exact alternatesTF_activeEmissions steps _
  · intro n
    have h := burst_pending_bound n burstRunnerState rfl (by decide)
    omega

/-- C4 (confirmed): firing run() at least three times while one cycle is in
flight leaves at most two additional cycles queued to execute thereafter
(the queue, minus the in-flight cycle, has length at most 2). -/
theorem C4_burst_bound (n : Nat) (h : 3 ≤ n) :
    (runTrace burstRunnerState
      (List.replicate n
        (LoopStep.runCall true))).1.pendingCycles.length - 1 ≤ 2 := by
  have hb := burst_pending_bound n burstRunnerState rfl (by decide)
  omega

/-- Witness for C4 at a burst of exactly three run() calls. -/
theorem C4_burst_bound_witness :
    (runTrace burstRunnerState
      (List.replicate 3
        (LoopStep.runCall true))).1.pendingCycles.length - 1 ≤ 2 :=
  C4_burst_bound 3 (by decide)

/-- C5 (counterexample): a cycle queued before cancel() still executes after
canceled emitted true, so the observables are not silent after cancellation:
in the trace run(), cancel(), cycle-execution the emissions after the
canceled emission are nonempty (active true, active false and even
initialReplicationComplete true, since runPush performs no stopped check in
a push-only setup). -/
theorem C5_counterexample :
    emissionsAfterCanceled (runTrace (initialRunnerState true)
      [LoopStep.runCall true, LoopStep.cancelCall,
       LoopStep.execCycle false]).2 ≠ [] := by decide

/-- A runner that has been canceled. -/
def canceledRunnerExample : RunnerState :=
  { destroyed := false, live := true, initialReplicationComplete := false,
    canceled := true, runQueueCount := 0, pendingCycles := [] }

/-- C5 (amended, proved): canceled emits true at most once and never false
over any trace from a fresh runner; once the canceled flag is set,
isStopped() is true and run() returns without queueing or emitting anything.
Cycles that were already queued at cancellation time may still execute and
emit (see the counterexample), which the original claim ruled out. -/
theorem C5_cancel_once_and_stopped :
    (∀ (live : Bool) (steps : List LoopStep),
      canceledEmissions (runTrace (initialRunnerState live) steps).2 = [] ∨
      canceledEmissions (runTrace (initialRunnerState live) steps).2 =
        [true]) ∧
    (∀ s : RunnerState, s.canceled = true → runnerStopped s = true) ∧
    (∀ (s : RunnerState) (r : Bool), s.canceled = true →
      loopStep s (LoopStep.runCall r) = (s, [])) := by
  refine ⟨?_, ?_, ?_⟩
  · intro live steps
    rw [runTrace_canceled_emissions steps (initialRunnerState live)]
    by_cases hf : (runTrace (initialRunnerState live) steps).1.canceled = true
    · right
      simp [show (initialRunnerState live).canceled = false from rfl, hf]
    · left
      simp only [Bool.not_eq_true] at hf
      simp [show (initialRunnerState live).canceled = false from rfl, hf]
  · intro s hc
    exact runnerStopped_of_canceled s hc
  · intro s r hc
    simp [loopStep, runnerStopped_of_canceled s hc]

/-- Witness for C5 at a concrete canceled runner. -/
theorem C5_cancel_once_and_stopped_witness :
    runnerStopped canceledRunnerExample = true ∧
    loopStep canceledRunnerExample (LoopStep.runCall true) =
      (canceledRunnerExample, []) :=
  ⟨C5_cancel_once_and_stopped.2.1 canceledRunnerExample rfl,
   C5_cancel_once_and_stopped.2.2 canceledRunnerExample true rfl⟩

end RxReplication
